import Mathlib

/-!
Verification of the forgekit tag-scoped content composition and drift engine.

This file is a shallow embedding of the registry composer
(`src/registry/composer.ts`), the template loader / store merge
(`src/registry/loader.ts`), and the refresh/drift logic
(`refresh_project` tool: `analyzeDrift`, `computeUpdatedTags`).

Conventions:
  * TypeScript string-literal union types become `String` abbreviations or
    small inductives; `Tag` is `String` with the `UNIVERSAL` constant,
    mirroring the string-literal union in `shared/types.ts`.
  * TS `Map` becomes an association list (`TemplateMap`) with first-match
    lookup (`mapGet`) and replace-or-append update (`mapSet`), matching
    `Map.get` / `Map.set` insertion-order semantics.
  * JS `Set` (insertion ordered) becomes a `List` with append-if-absent
    `setAdd` and filter `setDelete`.
  * `number` confidences become `ℚ`; the thresholds `0.5` / `0.6` are the
    literals from the source.
  * Optional fields become `Option`; `x?.y ?? d` becomes
    `(x.bind y).getD d`.
  * Thrown exceptions (`TemplateParseError`) become `Except`.
  * TS keywords that are also Lean keywords get a prime:
    `structure'` for the `structure` field, `include'` for `include`.
-/

/-- `ContentTier` from `shared/types.ts`: `"core" | "recommended" | "optional"`. -/
inductive ContentTier
  | core
  | recommended
  | optional
deriving DecidableEq, Repr

/-- `TIER_HIERARCHY` from `composer.ts`: which tiers each tier level admits. -/
def TIER_HIERARCHY : ContentTier → List ContentTier
  | .core => [.core]
  | .recommended => [.core, .recommended]
  | .optional => [.core, .recommended, .optional]

/-- `DEFAULT_TIER` from `composer.ts`: tier used when config gives none. -/
def DEFAULT_TIER : ContentTier := ContentTier.recommended

/-- `Tag` from `shared/types.ts` is a union of string literals; embedded as `String`. -/
abbrev Tag := String

/-- The always-present tag literal `"UNIVERSAL"`. -/
def UNIVERSAL : Tag := "UNIVERSAL"

/-- `ClaudeMdBlock` (alias `InstructionBlock`) from `shared/types.ts`. -/
structure ClaudeMdBlock where
  id : String
  title : String
  content : String
  tier : Option ContentTier
deriving DecidableEq, Repr

/-- `ClaudeMdTemplate` (alias `InstructionTemplate`); the constant
`section: "claude-md"` discriminator field is omitted (type-level literal). -/
structure ClaudeMdTemplate where
  tag : Tag
  blocks : List ClaudeMdBlock
deriving DecidableEq, Repr

/-- `StructureEntry` from `shared/types.ts`; `type` is `"directory" | "file"`. -/
structure StructureEntry where
  path : String
  type : String
  description : Option String
  template : Option String
deriving DecidableEq, Repr

/-- `StructureTemplate` from `shared/types.ts` (discriminator field omitted). -/
structure StructureTemplate where
  tag : Tag
  language : Option String
  entries : List StructureEntry
deriving DecidableEq, Repr

/-- `NfrBlock` from `shared/types.ts`. -/
structure NfrBlock where
  id : String
  title : String
  content : String
  tier : Option ContentTier
deriving DecidableEq, Repr

/-- `NfrTemplate` from `shared/types.ts` (discriminator field omitted). -/
structure NfrTemplate where
  tag : Tag
  blocks : List NfrBlock
deriving DecidableEq, Repr

/-- `HookTemplate` from `shared/types.ts`; `trigger` is a string-literal union. -/
structure HookTemplate where
  name : String
  trigger : String
  description : String
  filename : String
  script : String
deriving DecidableEq, Repr

/-- `ReviewChecklistItem` from `shared/types.ts`. -/
structure ReviewChecklistItem where
  id : String
  description : String
  severity : String
deriving DecidableEq, Repr

/-- `ReviewBlock` from `shared/types.ts`; `dimension` is a string-literal union. -/
structure ReviewBlock where
  id : String
  dimension : String
  title : String
  description : String
  checklist : List ReviewChecklistItem
  tier : Option ContentTier
deriving DecidableEq, Repr

/-- `ReviewTemplate` from `shared/types.ts` (discriminator field omitted). -/
structure ReviewTemplate where
  tag : Tag
  blocks : List ReviewBlock
deriving DecidableEq, Repr

/-- `TagTemplateSet` from `shared/types.ts`.  The field named `structure`
in TS is `structure'` here (Lean keyword). -/
structure TagTemplateSet where
  tag : Tag
  claudeMd : Option ClaudeMdTemplate
  nfr : Option NfrTemplate
  structure' : Option StructureTemplate
  hooks : Option (List HookTemplate)
  review : Option ReviewTemplate
deriving DecidableEq, Repr

/-- `ForgeKitConfig` from `shared/types.ts`, restricted to the fields the
composer and drift engine read (`tags`, `tier`, `include`, `exclude`,
`templateDirs`, `projectName`); remaining fields never influence the
verified functions.  `include` is `include'` (Lean keyword). -/
structure ForgeKitConfig where
  projectName : Option String
  tags : Option (List Tag)
  tier : Option ContentTier
  include' : Option (List String)
  exclude : Option (List String)
  templateDirs : Option (List String)
deriving DecidableEq, Repr

/-- `Map<Tag, TagTemplateSet>` embedded as an insertion-ordered association list. -/
abbrev TemplateMap := List (Tag × TagTemplateSet)

/-- `Map.get`: first entry with the key, if any. -/
def mapGet (m : TemplateMap) (t : Tag) : Option TagTemplateSet :=
  (m.find? (fun p => p.1 = t)).map (fun p => p.2)

/-- `Map.set`: replace the entry in place if the key exists, else append. -/
def mapSet (m : TemplateMap) (t : Tag) (v : TagTemplateSet) : TemplateMap :=
  if m.any (fun p => p.1 = t) then
    m.map (fun p => if p.1 = t then (t, v) else p)
  else
    m ++ [(t, v)]

/-- `ComposedTemplates` from `composer.ts`. -/
structure ComposedTemplates where
  claudeMdBlocks : List ClaudeMdBlock
  structureEntries : List StructureEntry
  nfrBlocks : List NfrBlock
  hooks : List HookTemplate
  reviewBlocks : List ReviewBlock
deriving DecidableEq, Repr

/-- `isTierAllowed` from `composer.ts`: blocks without a tier count as core. -/
def isTierAllowed (blockTier : Option ContentTier) (allowedTiers : List ContentTier) : Bool :=
  decide ((blockTier.getD .core) ∈ allowedTiers)

/-- `isBlockAllowed` from `composer.ts`: exclude always wins; a non-empty
include list admits only its members; otherwise pass. -/
def isBlockAllowed (blockId : String) (include? exclude? : Option (List String)) : Bool :=
  if blockId ∈ exclude?.getD [] then
    false
  else
    match include? with
    | some inc => if inc.length > 0 then decide (blockId ∈ inc) else true
    | none => true

/-- `normalizeTagOrder` from `composer.ts`: dedup keeping first occurrences
(`dedupKeep` is the `seen`-set loop). -/
def dedupKeep (seen : List Tag) : List Tag → List Tag
  | [] => []
  | t :: rest => if t ∈ seen then dedupKeep seen rest else t :: dedupKeep (t :: seen) rest

/-- `normalizeTagOrder` from `composer.ts`: UNIVERSAL is prepended only when
absent from the list; otherwise the caller order is kept (duplicates
removed, first occurrence kept). -/
def normalizeTagOrder (tags : List Tag) : List Tag :=
  if UNIVERSAL ∈ tags then dedupKeep [] tags
  else UNIVERSAL :: dedupKeep [UNIVERSAL] tags

/-- One dedup-and-gate pass shared by the five per-kind loops in
`composeTemplates`: visit fragments in order, admit a fragment iff its key
is unseen and the gate passes, appending admitted fragments and marking
their keys seen. -/
def admitFrags {α : Type} (key : α → String) (gate : α → Bool) :
    List α → List String → List α → List String × List α
  | [], seen, out => (seen, out)
  | f :: rest, seen, out =>
    if key f ∉ seen ∧ gate f then
      admitFrags key gate rest (key f :: seen) (out ++ [f])
    else
      admitFrags key gate rest seen out

/-- `templateSet.claudeMd?.blocks` with a missing template contributing nothing. -/
def cmBlocksOf (o : Option ClaudeMdTemplate) : List ClaudeMdBlock :=
  match o with
  | some t => t.blocks
  | none => []

/-- `templateSet.structure?.entries` with a missing template contributing nothing. -/
def entriesOf (o : Option StructureTemplate) : List StructureEntry :=
  match o with
  | some t => t.entries
  | none => []

/-- `templateSet.nfr?.blocks` with a missing template contributing nothing. -/
def nfrBlocksOf (o : Option NfrTemplate) : List NfrBlock :=
  match o with
  | some t => t.blocks
  | none => []

/-- `templateSet.hooks` with a missing list contributing nothing. -/
def hooksOf (o : Option (List HookTemplate)) : List HookTemplate :=
  o.getD []

/-- `templateSet.review?.blocks` with a missing template contributing nothing. -/
def reviewBlocksOf (o : Option ReviewTemplate) : List ReviewBlock :=
  match o with
  | some t => t.blocks
  | none => []

/-- The mutable accumulators of `composeTemplates`: five output lists and
their five `seen` sets. -/
structure ComposeAcc where
  seenBlockIds : List String
  seenPaths : List String
  seenNfrIds : List String
  seenHookNames : List String
  seenReviewIds : List String
  claudeMdBlocks : List ClaudeMdBlock
  structureEntries : List StructureEntry
  nfrBlocks : List NfrBlock
  hooks : List HookTemplate
  reviewBlocks : List ReviewBlock

/-- The empty accumulator state at the start of `composeTemplates`. -/
def initAcc : ComposeAcc := ⟨[], [], [], [], [], [], [], [], [], []⟩

/-- The gate applied to CLAUDE.md blocks: tier filter plus include/exclude. -/
def cmGate (allowed : List ContentTier) (inc exc : Option (List String)) (b : ClaudeMdBlock) : Bool :=
  isTierAllowed b.tier allowed && isBlockAllowed b.id inc exc

/-- The gate applied to NFR blocks: tier filter plus include/exclude. -/
def nfrGate (allowed : List ContentTier) (inc exc : Option (List String)) (b : NfrBlock) : Bool :=
  isTierAllowed b.tier allowed && isBlockAllowed b.id inc exc

/-- The gate applied to review blocks: tier filter plus include/exclude. -/
def reviewGate (allowed : List ContentTier) (inc exc : Option (List String)) (b : ReviewBlock) : Bool :=
  isTierAllowed b.tier allowed && isBlockAllowed b.id inc exc

/-- The body of the per-tag loop in `composeTemplates`: a missing template
set contributes nothing (warn only); otherwise the five kinds are processed
in source order.  Structure entries are deduplicated by path and hooks by
name with no tier and no include/exclude gate, exactly as in the source. -/
def composeTag (allowed : List ContentTier) (inc exc : Option (List String))
    (acc : ComposeAcc) (ts : Option TagTemplateSet) : ComposeAcc :=
  match ts with
  | none => acc
  | some set =>
    { seenBlockIds :=
        (admitFrags (fun b => b.id) (cmGate allowed inc exc) (cmBlocksOf set.claudeMd)
          acc.seenBlockIds acc.claudeMdBlocks).1
      claudeMdBlocks :=
        (admitFrags (fun b => b.id) (cmGate allowed inc exc) (cmBlocksOf set.claudeMd)
          acc.seenBlockIds acc.claudeMdBlocks).2
      seenPaths :=
        (admitFrags (fun e => e.path) (fun _ => true) (entriesOf set.structure')
          acc.seenPaths acc.structureEntries).1
      structureEntries :=
        (admitFrags (fun e => e.path) (fun _ => true) (entriesOf set.structure')
          acc.seenPaths acc.structureEntries).2
      seenNfrIds :=
        (admitFrags (fun b => b.id) (nfrGate allowed inc exc) (nfrBlocksOf set.nfr)
          acc.seenNfrIds acc.nfrBlocks).1
      nfrBlocks :=
        (admitFrags (fun b => b.id) (nfrGate allowed inc exc) (nfrBlocksOf set.nfr)
          acc.seenNfrIds acc.nfrBlocks).2
      seenHookNames :=
        (admitFrags (fun h => h.name) (fun _ => true) (hooksOf set.hooks)
          acc.seenHookNames acc.hooks).1
      hooks :=
        (admitFrags (fun h => h.name) (fun _ => true) (hooksOf set.hooks)
          acc.seenHookNames acc.hooks).2
      seenReviewIds :=
        (admitFrags (fun b => b.id) (reviewGate allowed inc exc) (reviewBlocksOf set.review)
          acc.seenReviewIds acc.reviewBlocks).1
      reviewBlocks :=
        (admitFrags (fun b => b.id) (reviewGate allowed inc exc) (reviewBlocksOf set.review)
          acc.seenReviewIds acc.reviewBlocks).2 }

/-- `composeTemplates` from `composer.ts`.  `config?` stands for
`options?.config`; tier defaults to `DEFAULT_TIER`. -/
def composeTemplates (activeTags : List Tag) (allTemplates : TemplateMap)
    (config? : Option ForgeKitConfig) : ComposedTemplates :=
  let tierLevel := (config?.bind (fun c => c.tier)).getD DEFAULT_TIER
  let allowedTiers := TIER_HIERARCHY tierLevel
  let includeList := config?.bind (fun c => c.include')
  let excludeList := config?.bind (fun c => c.exclude)
  let orderedTags := normalizeTagOrder activeTags
  let acc := orderedTags.foldl
    (fun acc tag => composeTag allowedTiers includeList excludeList acc (mapGet allTemplates tag))
    initAcc
  ⟨acc.claudeMdBlocks, acc.structureEntries, acc.nfrBlocks, acc.hooks, acc.reviewBlocks⟩

/-! ### Loader (`src/registry/loader.ts`) -/

/-- `TemplateParseError` from `shared/errors`: file path plus message. -/
structure TemplateParseError where
  filePath : String
  message : String
deriving DecidableEq, Repr

/-- The outcome of reading and `yaml.load`-ing one source file, the
filesystem/YAML layer being external: `.error msg` models a throwing parse,
`.ok none` a parse to null/undefined, `.ok (some v)` a successful parse. -/
abbrev YamlFile (α : Type) := Except String (Option α)

/-- `loadYamlFile` from `loader.ts`: converts a failed or null parse into a
thrown `TemplateParseError`. -/
def loadYamlFile {α : Type} (filePath : String) (file : YamlFile α) :
    Except TemplateParseError α :=
  match file with
  | .error msg => .error ⟨filePath, msg⟩
  | .ok none => .error ⟨filePath, "YAML parsed to null/undefined"⟩
  | .ok (some v) => .ok v

/-- Parsed shape of a `hooks.yaml` file (`HooksYamlFile` in `loader.ts`). -/
structure HooksYamlFile where
  tag : Tag
  hooks : List HookTemplate
deriving DecidableEq, Repr

/-- One tag directory as seen by `loadTagTemplateSet`: for each fragment
kind, either no file (`none`) or a file with its parse outcome.
`claudeMdFile` is the legacy `claude-md.yaml` fallback. -/
structure TagSource where
  instructionsFile : Option (YamlFile ClaudeMdTemplate)
  claudeMdFile : Option (YamlFile ClaudeMdTemplate)
  nfrFile : Option (YamlFile NfrTemplate)
  structureFile : Option (YamlFile StructureTemplate)
  hooksFile : Option (YamlFile HooksYamlFile)
  reviewFile : Option (YamlFile ReviewTemplate)

/-- `loadTagTemplateSet` from `loader.ts`: each present file is parsed with
`loadYamlFile` (errors propagate); an absent file merely omits that kind;
`claude-md.yaml` is tried when `instructions.yaml` is absent.  The loaded
instruction template fills the `claudeMd` field of `TagTemplateSet`
(`instructions` and `claudeMd` are aliases in `shared/types.ts`). -/
def loadTagTemplateSet (tag : Tag) (tagDir : String) (src : TagSource) :
    Except TemplateParseError TagTemplateSet := do
  let instructions ←
    match src.instructionsFile with
    | some f => Except.map some (loadYamlFile (tagDir ++ "/instructions.yaml") f)
    | none =>
      match src.claudeMdFile with
      | some f => Except.map some (loadYamlFile (tagDir ++ "/claude-md.yaml") f)
      | none => pure none
  let nfr ←
    match src.nfrFile with
    | some f => Except.map some (loadYamlFile (tagDir ++ "/nfr.yaml") f)
    | none => pure none
  let structureT ←
    match src.structureFile with
    | some f => Except.map some (loadYamlFile (tagDir ++ "/structure.yaml") f)
    | none => pure none
  let hooks ←
    match src.hooksFile with
    | some f =>
      Except.map (fun (hf : HooksYamlFile) => some hf.hooks) (loadYamlFile (tagDir ++ "/hooks.yaml") f)
    | none => pure none
  let review ←
    match src.reviewFile with
    | some f => Except.map some (loadYamlFile (tagDir ++ "/review.yaml") f)
    | none => pure none
  pure ⟨tag, instructions, nfr, structureT, hooks, review⟩

/-- The directory-name-to-tag mapping inside `tagDirNameToTag`. -/
def TAG_DIR_MAPPING : List (String × Tag) :=
  [("universal", "UNIVERSAL"),
   ("web-react", "WEB-REACT"),
   ("web-static", "WEB-STATIC"),
   ("api", "API"),
   ("data-pipeline", "DATA-PIPELINE"),
   ("ml", "ML"),
   ("healthcare", "HEALTHCARE"),
   ("fintech", "FINTECH"),
   ("web3", "WEB3"),
   ("realtime", "REALTIME"),
   ("state-machine", "STATE-MACHINE"),
   ("game", "GAME"),
   ("social", "SOCIAL"),
   ("cli", "CLI"),
   ("library", "LIBRARY"),
   ("infra", "INFRA"),
   ("mobile", "MOBILE"),
   ("analytics", "ANALYTICS")]

/-- `tagDirNameToTag` from `loader.ts`: unknown directory names map to `none`. -/
def tagDirNameToTag (dirName : String) : Option Tag :=
  (TAG_DIR_MAPPING.find? (fun p => p.1 = dirName)).map (fun p => p.2)

/-- The loop body of `loadAllTemplates`: unknown tag directories are skipped
with a warning; a known tag's set is loaded (errors propagate) and stored. -/
def loadAllTemplatesGo : List (String × TagSource) → TemplateMap →
    Except TemplateParseError TemplateMap
  | [], acc => .ok acc
  | (dirName, src) :: rest, acc =>
    match tagDirNameToTag dirName with
    | none => loadAllTemplatesGo rest acc
    | some tag =>
      match loadTagTemplateSet tag dirName src with
      | .error e => .error e
      | .ok templateSet => loadAllTemplatesGo rest (mapSet acc tag templateSet)

/-- `loadAllTemplates` from `loader.ts`, with the directory walk replaced by
its result: the list of (directory name, parsed tag directory) pairs. -/
def loadAllTemplates (sources : List (String × TagSource)) :
    Except TemplateParseError TemplateMap :=
  loadAllTemplatesGo sources []

/-- `mergeInstructionTemplates` from `loader.ts`: append the extra blocks
whose ids are not already present in the base. -/
def mergeInstructionTemplates (base extra : Option ClaudeMdTemplate) :
    Option ClaudeMdTemplate :=
  match base, extra with
  | base, none => base
  | none, extra => extra
  | some b, some e =>
    let seenIds := b.blocks.map (fun blk => blk.id)
    let newBlocks := e.blocks.filter (fun blk => blk.id ∉ seenIds)
    some { b with blocks := b.blocks ++ newBlocks }

/-- `mergeNfrTemplates` from `loader.ts`. -/
def mergeNfrTemplates (base extra : Option NfrTemplate) : Option NfrTemplate :=
  match base, extra with
  | base, none => base
  | none, extra => extra
  | some b, some e =>
    let seenIds := b.blocks.map (fun blk => blk.id)
    let newBlocks := e.blocks.filter (fun blk => blk.id ∉ seenIds)
    some { b with blocks := b.blocks ++ newBlocks }

/-- `mergeHookTemplates` from `loader.ts`: dedup by hook name. -/
def mergeHookTemplates (base extra : Option (List HookTemplate)) :
    Option (List HookTemplate) :=
  match base, extra with
  | base, none => base
  | none, extra => extra
  | some b, some e =>
    let seenNames := b.map (fun h => h.name)
    let newHooks := e.filter (fun h => h.name ∉ seenNames)
    some (b ++ newHooks)

/-- `mergeReviewTemplates` from `loader.ts`. -/
def mergeReviewTemplates (base extra : Option ReviewTemplate) : Option ReviewTemplate :=
  match base, extra with
  | base, none => base
  | none, extra => extra
  | some b, some e =>
    let seenIds := b.blocks.map (fun blk => blk.id)
    let newBlocks := e.blocks.filter (fun blk => blk.id ∉ seenIds)
    some { b with blocks := b.blocks ++ newBlocks }

/-- The per-tag merge inside `loadAllTemplatesWithExtras`: four kinds merge
additively; the structure template is `extraSet.structure ?? baseSet.structure`
(replace if the extension provides one). -/
def mergeTagTemplateSet (tag : Tag) (baseSet extraSet : TagTemplateSet) : TagTemplateSet :=
  { tag := tag
    claudeMd := mergeInstructionTemplates baseSet.claudeMd extraSet.claudeMd
    nfr := mergeNfrTemplates baseSet.nfr extraSet.nfr
    structure' :=
      match extraSet.structure' with
      | some s => some s
      | none => baseSet.structure'
    hooks := mergeHookTemplates baseSet.hooks extraSet.hooks
    review := mergeReviewTemplates baseSet.review extraSet.review }

/-- The loop of `loadAllTemplatesWithExtras` over one extra directory's map:
a tag new to the base is inserted wholesale, an existing tag is merged. -/
def mergeExtra (base : TemplateMap) (extra : TemplateMap) : TemplateMap :=
  extra.foldl
    (fun acc p =>
      match mapGet acc p.1 with
      | none => mapSet acc p.1 p.2
      | some baseSet => mapSet acc p.1 (mergeTagTemplateSet p.1 baseSet p.2))
    base

/-- `loadAllTemplatesWithExtras` from `loader.ts`, with each directory's
loaded map supplied directly: the base map, then each extra map merged in
caller order. -/
def loadAllTemplatesWithExtras (base : TemplateMap) (extraMaps : List TemplateMap) :
    TemplateMap :=
  extraMaps.foldl mergeExtra base

/-! ### Drift engine (`refresh_project` tool) -/

/-- A detection signal from the external analyzers; `confidence` is `ℚ`. -/
structure Detection where
  tag : Tag
  confidence : ℚ
  evidence : List String
deriving DecidableEq, Repr

/-- One entry of `newTagSuggestions` in the drift report. -/
structure Suggestion where
  tag : Tag
  confidence : ℚ
  evidence : List String
deriving DecidableEq, Repr

/-- `SUGGEST_THRESHOLD` from the refresh tool: minimum confidence to suggest. -/
def SUGGEST_THRESHOLD : ℚ := 0.5

/-- The suggestion loop of `analyzeDrift`: a detection is suggested iff its
confidence reaches the threshold and its tag is not already configured. -/
def newTagSuggestions (currentTags : List Tag) (detections : List Detection) :
    List Suggestion :=
  (detections.filter
    (fun d => SUGGEST_THRESHOLD ≤ d.confidence ∧ d.tag ∉ currentTags)).map
    (fun d => ⟨d.tag, d.confidence, d.evidence⟩)

/-- JS `Set.add`: append iff absent (insertion order preserved). -/
def setAdd (s : List Tag) (t : Tag) : List Tag :=
  if t ∈ s then s else s ++ [t]

/-- JS `Set.delete`: remove the element. -/
def setDelete (s : List Tag) (t : Tag) : List Tag :=
  s.filter (fun x => x ≠ t)

/-- `computeUpdatedTags` from the refresh tool: current tags, then
suggestions with confidence `≥ 0.6`, then explicit adds, then explicit
removes (never `UNIVERSAL`), and finally `UNIVERSAL` is ensured. -/
def computeUpdatedTags (currentTags : List Tag) (suggestions : List Suggestion)
    (addTags removeTags : Option (List Tag)) : List Tag :=
  let tagSet := currentTags.foldl setAdd []
  let tagSet := suggestions.foldl
    (fun s sg => if (0.6 : ℚ) ≤ sg.confidence then setAdd s sg.tag else s) tagSet
  let tagSet := (addTags.getD []).foldl setAdd tagSet
  let tagSet := (removeTags.getD []).foldl
    (fun s t => if t ≠ UNIVERSAL then setDelete s t else s) tagSet
  setAdd tagSet UNIVERSAL

/-- `DriftReport` from the refresh tool.  `blockCountDelta` is its only
count field and is a single before/after pair. -/
structure DriftReport where
  currentTags : List Tag
  newTagSuggestions : List Suggestion
  droppedTagCandidates : List Tag
  completenessGaps : List String
  completenessFixed : List String
  tierChange : Option (ContentTier × ContentTier)
  blockCountDelta : Nat × Nat
deriving DecidableEq, Repr

/-- `analyzeDrift` from the refresh tool, with the external collaborators
supplied as inputs: `detections` stands for `analyzeProject(projectDir)`,
`completeness` for the `checkCompleteness` gap/fixed lists, and
`allTemplates` for the store loaded by `loadAllTemplatesWithExtras`. -/
def analyzeDrift (config : ForgeKitConfig) (argsTier : Option ContentTier)
    (addTags removeTags : Option (List Tag)) (detections : List Detection)
    (completeness : List String × List String) (allTemplates : TemplateMap) :
    DriftReport :=
  let currentTags := config.tags.getD [UNIVERSAL]
  let currentTier := config.tier.getD .recommended
  let requestedTier := argsTier.getD currentTier
  let suggestions := newTagSuggestions currentTags detections
  let detectedTags := detections.map (fun d => d.tag)
  let droppedTagCandidates :=
    currentTags.filter (fun t => t ≠ UNIVERSAL ∧ t ∉ detectedTags)
  let tierChange :=
    if requestedTier ≠ currentTier then some (currentTier, requestedTier) else none
  let beforeComposed := composeTemplates currentTags allTemplates (some config)
  let proposedTags := computeUpdatedTags currentTags suggestions addTags removeTags
  let afterConfig := { config with tags := some proposedTags, tier := some requestedTier }
  let afterComposed := composeTemplates proposedTags allTemplates (some afterConfig)
  { currentTags := currentTags
    newTagSuggestions := suggestions
    droppedTagCandidates := droppedTagCandidates
    completenessGaps := completeness.1
    completenessFixed := completeness.2
    tierChange := tierChange
    blockCountDelta := (beforeComposed.claudeMdBlocks.length, afterComposed.claudeMdBlocks.length) }

/-! ### Derived views used by the proofs -/

/-- The CLAUDE.md blocks one tag contributes: nothing when the tag is absent
from the store or has no template of this kind. -/
def tagCmBlocks (store : TemplateMap) (t : Tag) : List ClaudeMdBlock :=
  match mapGet store t with
  | none => []
  | some s => cmBlocksOf s.claudeMd

/-- The structure entries one tag contributes. -/
def tagEntries (store : TemplateMap) (t : Tag) : List StructureEntry :=
  match mapGet store t with
  | none => []
  | some s => entriesOf s.structure'

/-- The NFR blocks one tag contributes. -/
def tagNfrBlocks (store : TemplateMap) (t : Tag) : List NfrBlock :=
  match mapGet store t with
  | none => []
  | some s => nfrBlocksOf s.nfr

/-- The hooks one tag contributes. -/
def tagHooks (store : TemplateMap) (t : Tag) : List HookTemplate :=
  match mapGet store t with
  | none => []
  | some s => hooksOf s.hooks

/-- The review blocks one tag contributes. -/
def tagReviewBlocks (store : TemplateMap) (t : Tag) : List ReviewBlock :=
  match mapGet store t with
  | none => []
  | some s => reviewBlocksOf s.review

/-- The whole CLAUDE.md fragment stream visited by a composition pass. -/
def cmStream (store : TemplateMap) (tags : List Tag) : List ClaudeMdBlock :=
  (tags.map (tagCmBlocks store)).flatten

/-- The whole structure-entry stream visited by a composition pass. -/
def entryStream (store : TemplateMap) (tags : List Tag) : List StructureEntry :=
  (tags.map (tagEntries store)).flatten

/-- The whole NFR fragment stream visited by a composition pass. -/
def nfrStream (store : TemplateMap) (tags : List Tag) : List NfrBlock :=
  (tags.map (tagNfrBlocks store)).flatten

/-- The whole hook stream visited by a composition pass. -/
def hookStream (store : TemplateMap) (tags : List Tag) : List HookTemplate :=
  (tags.map (tagHooks store)).flatten

/-- The whole review fragment stream visited by a composition pass. -/
def reviewStream (store : TemplateMap) (tags : List Tag) : List ReviewBlock :=
  (tags.map (tagReviewBlocks store)).flatten

/-- The `core < recommended < optional` order on tiers as a Bool. -/
def tierLe : ContentTier → ContentTier → Bool
  | .core, _ => true
  | .recommended, .core => false
  | .recommended, _ => true
  | .optional, .optional => true
  | .optional, _ => false

/-- First-writer-wins preservation for one fragment kind: the base list is a
prefix of the merged list, and any merged fragment whose key already occurs
in the base is the base's own fragment (an extension duplicate never
replaces it). -/
def kindPreserved {β : Type} (key : β → String) (bsK msK : List β) : Prop :=
  bsK <+: msK ∧ ∀ b ∈ msK, key b ∈ bsK.map key → b ∈ bsK

/-- First-writer-wins preservation for the four additively merged kinds of a
tag's template set (the structure template follows replace-if-present
instead and is deliberately not covered). -/
def mergePreserves (bs ms : TagTemplateSet) : Prop :=
  kindPreserved (fun b => b.id) (cmBlocksOf bs.claudeMd) (cmBlocksOf ms.claudeMd) ∧
  kindPreserved (fun b => b.id) (nfrBlocksOf bs.nfr) (nfrBlocksOf ms.nfr) ∧
  kindPreserved (fun h => h.name) (hooksOf bs.hooks) (hooksOf ms.hooks) ∧
  kindPreserved (fun b => b.id) (reviewBlocksOf bs.review) (reviewBlocksOf ms.review)

/-! ### Concrete sample data used by counterexamples and witnesses -/

/-- A CLAUDE.md block carried by the universal tag. -/
def sampleUniversalBlock : ClaudeMdBlock := ⟨"u-block", "U", "cu", none⟩

/-- A CLAUDE.md block carried by the API tag. -/
def sampleApiBlock : ClaudeMdBlock := ⟨"a-block", "A", "ca", none⟩

/-- A store carrying one block under UNIVERSAL and one under API. -/
def sampleStoreUA : TemplateMap :=
  [("UNIVERSAL", ⟨"UNIVERSAL", some ⟨"UNIVERSAL", [sampleUniversalBlock]⟩, none, none, none, none⟩),
   ("API", ⟨"API", some ⟨"API", [sampleApiBlock]⟩, none, none, none, none⟩)]

/-- A hook named `h`. -/
def sampleHook : HookTemplate := ⟨"h", "pre-commit", "d", "h.sh", "s"⟩

/-- A structure entry with path `src/`. -/
def sampleEntry : StructureEntry := ⟨"src/", "directory", none, none⟩

/-- A store whose universal tag carries only a hook and a structure entry. -/
def sampleHookStore : TemplateMap :=
  [("UNIVERSAL", ⟨"UNIVERSAL", none, none, some ⟨"UNIVERSAL", none, [sampleEntry]⟩,
    some [sampleHook], none⟩)]

/-- A config that excludes the sample hook's name and the sample entry's path
and whose non-empty include list contains neither. -/
def sampleExcludingConfig : ForgeKitConfig :=
  ⟨none, none, some .optional, some ["only-this"], some ["h", "src/"], none⟩

/-- Block id `x` as carried by UNIVERSAL: tier recommended. -/
def sampleXFromUniversal : ClaudeMdBlock := ⟨"x", "fromU", "cu", some .recommended⟩

/-- Block id `x` as carried by API: tier core, different payload. -/
def sampleXFromApi : ClaudeMdBlock := ⟨"x", "fromA", "ca", some .core⟩

/-- A store in which UNIVERSAL and API carry different blocks with the same id. -/
def sampleDupIdStore : TemplateMap :=
  [("UNIVERSAL", ⟨"UNIVERSAL", some ⟨"UNIVERSAL", [sampleXFromUniversal]⟩, none, none, none, none⟩),
   ("API", ⟨"API", some ⟨"API", [sampleXFromApi]⟩, none, none, none, none⟩)]

/-- A config with no include/exclude lists and no tier (tier is set per use). -/
def samplePlainConfig : ForgeKitConfig := ⟨none, none, none, none, none, none⟩

/-- A tag directory whose files are all absent: loads to an empty set. -/
def sampleOkSource : TagSource := ⟨none, none, none, none, none, none⟩

/-- A tag directory whose `nfr.yaml` is present but malformed. -/
def sampleBadSource : TagSource := ⟨none, none, some (.error "bad indent"), none, none, none⟩

/-- A template-source load in which exactly one tag's file is malformed. -/
def sampleBadSources : List (String × TagSource) :=
  [("universal", sampleOkSource), ("api", sampleBadSource)]

/-- A base structure template whose single entry carries payload `base`. -/
def sampleBaseStructure : StructureTemplate :=
  ⟨"UNIVERSAL", none, [⟨"src/", "directory", some "base", none⟩]⟩

/-- An extension structure template reusing the same path with payload `ext`. -/
def sampleExtStructure : StructureTemplate :=
  ⟨"UNIVERSAL", none, [⟨"src/", "directory", some "ext", none⟩]⟩

/-- The base template set used by the merge sample: one structure template
and one CLAUDE.md block. -/
def sampleBaseSet : TagTemplateSet :=
  ⟨"UNIVERSAL", some ⟨"UNIVERSAL", [sampleUniversalBlock]⟩, none, some sampleBaseStructure, none, none⟩

/-- The extension template set used by the merge sample. -/
def sampleExtSet : TagTemplateSet :=
  ⟨"UNIVERSAL", some ⟨"UNIVERSAL", [⟨"u-block", "Uext", "overridden", none⟩, ⟨"e-block", "E", "ce", none⟩]⟩,
   none, some sampleExtStructure, none, none⟩

/-- The base store of the merge sample. -/
def sampleBaseStore : TemplateMap := [("UNIVERSAL", sampleBaseSet)]

/-- The extension store of the merge sample. -/
def sampleExtStore : TemplateMap := [("UNIVERSAL", sampleExtSet)]

/-- The drift-sample config: universal only, recommended tier. -/
def sampleDriftConfig : ForgeKitConfig :=
  ⟨none, some ["UNIVERSAL"], some .recommended, none, none, none⟩

/-- The drift-sample store: API carries one NFR block, nothing else anywhere. -/
def sampleDriftStore : TemplateMap :=
  [("UNIVERSAL", ⟨"UNIVERSAL", none, none, none, none, none⟩),
   ("API", ⟨"API", none, some ⟨"API", [⟨"api-perf", "t", "c", none⟩]⟩, none, none, none⟩)]

/-- A detection of the API tag at confidence 0.65. -/
def sampleApiDetection : Detection := ⟨"API", 0.65, ["dep"]⟩

/-- A detection of the MOBILE tag at confidence 0.55. -/
def sampleMobileDetection : Detection := ⟨"MOBILE", 0.55, ["m"]⟩

/-- The result of merging the extension sample into the base sample: the
duplicate-id instruction block keeps the base payload, the new block is
appended, and the structure template is the extension's. -/
def sampleMergedSet : TagTemplateSet :=
  ⟨"UNIVERSAL",
   some ⟨"UNIVERSAL", [sampleUniversalBlock, ⟨"e-block", "E", "ce", none⟩]⟩,
   none, some sampleExtStructure, none, none⟩

/-! ### Generic lemmas about the dedup-and-gate pass -/

theorem admitFrags_append {α : Type} (key : α → String) (gate : α → Bool)
    (xs ys : List α) (s : List String) (o : List α) :
    admitFrags key gate (xs ++ ys) s o =
      admitFrags key gate ys (admitFrags key gate xs s o).1 (admitFrags key gate xs s o).2 := by
  induction xs generalizing s o with
  | nil => rfl
  | cons f rest ih =>
    simp only [List.cons_append, admitFrags]
    split
    · exact ih _ _
    · exact ih _ _

theorem admitFrags_mem_seen_of_mem {α : Type} (key : α → String) (gate : α → Bool)
    (fs : List α) (s : List String) (o : List α) (x : String) (hx : x ∈ s) :
    x ∈ (admitFrags key gate fs s o).1 := by
  induction fs generalizing s o with
  | nil => exact hx
  | cons f rest ih =>
    simp only [admitFrags]
    split
    · exact ih _ _ (List.mem_cons_of_mem _ hx)
    · exact ih _ _ hx

theorem admitFrags_mem_out_of_mem {α : Type} (key : α → String) (gate : α → Bool)
    (fs : List α) (s : List String) (o : List α) (b : α) (hb : b ∈ o) :
    b ∈ (admitFrags key gate fs s o).2 := by
  induction fs generalizing s o with
  | nil => exact hb
  | cons f rest ih =>
    simp only [admitFrags]
    split
    · exact ih _ _ (List.mem_append_left _ hb)
    · exact ih _ _ hb

theorem admitFrags_out_sound {α : Type} (key : α → String) (gate : α → Bool)
    (fs : List α) (s : List String) (o : List α) (b : α)
    (hb : b ∈ (admitFrags key gate fs s o).2) :
    b ∈ o ∨ (b ∈ fs ∧ gate b = true) := by
  induction fs generalizing s o with
  | nil => exact Or.inl hb
  | cons f rest ih =>
    simp only [admitFrags] at hb
    split at hb
    case isTrue h =>
      rcases ih _ _ hb with ho | ⟨hf, hg⟩
      · rcases List.mem_append.1 ho with ho | hself
        · exact Or.inl ho
        · have : b = f := List.mem_singleton.1 hself
          subst this
          exact Or.inr ⟨List.mem_cons_self _ _, h.2⟩
      · exact Or.inr ⟨List.mem_cons_of_mem _ hf, hg⟩
    case isFalse h =>
      rcases ih _ _ hb with ho | ⟨hf, hg⟩
      · exact Or.inl ho
      · exact Or.inr ⟨List.mem_cons_of_mem _ hf, hg⟩

theorem admitFrags_seen_complete {α : Type} (key : α → String) (gate : α → Bool)
    (fs : List α) (s : List String) (o : List α) (f : α) (x : String)
    (hf : f ∈ fs) (hk : key f = x) (hg : gate f = true) :
    x ∈ (admitFrags key gate fs s o).1 := by
  induction fs generalizing s o with
  | nil => cases hf
  | cons g rest ih =>
    simp only [admitFrags]
    rcases List.mem_cons.1 hf with hfg | hfr
    · subst hfg
      split
      case isTrue h =>
        exact admitFrags_mem_seen_of_mem _ _ _ _ _ _ (hk ▸ List.mem_cons_self _ _)
      case isFalse h =>
        have hin : key f ∈ s := by
          by_contra hns
          exact h ⟨hns, hg⟩
        exact admitFrags_mem_seen_of_mem _ _ _ _ _ _ (hk ▸ hin)
    · split
      · exact ih _ _ hfr
      · exact ih _ _ hfr

theorem admitFrags_seen_sound {α : Type} (key : α → String) (gate : α → Bool)
    (fs : List α) (s : List String) (o : List α) (x : String)
    (hx : x ∈ (admitFrags key gate fs s o).1) :
    x ∈ s ∨ x ∈ (admitFrags key gate fs s o).2.map key := by
  induction fs generalizing s o with
  | nil => exact Or.inl hx
  | cons f rest ih =>
    simp only [admitFrags] at hx ⊢
    split at hx
    case isTrue h =>
      rw [if_pos h]
      rcases ih _ _ hx with hs | hout
      · rcases List.mem_cons.1 hs with hxf | hxs
        · subst hxf
          refine Or.inr (List.mem_map.2 ⟨f, ?_, rfl⟩)
          exact admitFrags_mem_out_of_mem _ _ _ _ _ _
            (List.mem_append_right _ (List.mem_singleton.2 rfl))
        · exact Or.inl hxs
      · exact Or.inr hout
    case isFalse h =>
      rw [if_neg h]
      rcases ih _ _ hx with hs | hout
      · exact Or.inl hs
      · exact Or.inr hout

theorem admitFrags_nodup_keys {α : Type} (key : α → String) (gate : α → Bool)
    (fs : List α) (s : List String) (o : List α)
    (hnd : (o.map key).Nodup) (hsub : ∀ y ∈ o.map key, y ∈ s) :
    ((admitFrags key gate fs s o).2.map key).Nodup := by
  induction fs generalizing s o with
  | nil => exact hnd
  | cons f rest ih =>
    simp only [admitFrags]
    split
    case isTrue h =>
      refine ih _ _ ?_ ?_
      · simp only [List.map_append, List.map_cons, List.map_nil]
        refine List.Nodup.append hnd (List.nodup_singleton _) ?_
        intro y hy hy'
        have : y = key f := List.mem_singleton.1 hy'
        subst this
        exact h.1 (hsub _ hy)
      · intro y hy
        simp only [List.map_append, List.map_cons, List.map_nil] at hy
        rcases List.mem_append.1 hy with hy | hy
        · exact List.mem_cons_of_mem _ (hsub _ hy)
        · exact List.mem_singleton.1 hy ▸ List.mem_cons_self _ _
    case isFalse h =>
      exact ih _ _ hnd hsub

theorem admitFrags_keys_mono {α : Type} (key : α → String) (g1 g2 : α → Bool)
    (hg : ∀ f, g1 f = true → g2 f = true) (fs : List α) (x : String)
    (hx : x ∈ (admitFrags key g1 fs [] []).2.map key) :
    x ∈ (admitFrags key g2 fs [] []).2.map key := by
  rcases List.mem_map.1 hx with ⟨b, hb, rfl⟩
  rcases admitFrags_out_sound key g1 fs [] [] b hb with ho | ⟨hbf, hbg⟩
  · cases ho
  · have h1 : key b ∈ (admitFrags key g2 fs [] []).1 :=
      admitFrags_seen_complete key g2 fs [] [] b (key b) hbf rfl (hg _ hbg)
    rcases admitFrags_seen_sound key g2 fs [] [] (key b) h1 with h | h
    · cases h
    · exact h

/-! ### Stream factorization of the composer -/

theorem foldl_composeTag_eq (allowed : List ContentTier) (inc exc : Option (List String))
    (store : TemplateMap) (tags : List Tag) (acc : ComposeAcc) :
    tags.foldl (fun a t => composeTag allowed inc exc a (mapGet store t)) acc =
      { seenBlockIds := (admitFrags (fun b => b.id) (cmGate allowed inc exc)
          (cmStream store tags) acc.seenBlockIds acc.claudeMdBlocks).1
        claudeMdBlocks := (admitFrags (fun b => b.id) (cmGate allowed inc exc)
          (cmStream store tags) acc.seenBlockIds acc.claudeMdBlocks).2
        seenPaths := (admitFrags (fun e => e.path) (fun _ => true)
          (entryStream store tags) acc.seenPaths acc.structureEntries).1
        structureEntries := (admitFrags (fun e => e.path) (fun _ => true)
          (entryStream store tags) acc.seenPaths acc.structureEntries).2
        seenNfrIds := (admitFrags (fun b => b.id) (nfrGate allowed inc exc)
          (nfrStream store tags) acc.seenNfrIds acc.nfrBlocks).1
        nfrBlocks := (admitFrags (fun b => b.id) (nfrGate allowed inc exc)
          (nfrStream store tags) acc.seenNfrIds acc.nfrBlocks).2
        seenHookNames := (admitFrags (fun h => h.name) (fun _ => true)
          (hookStream store tags) acc.seenHookNames acc.hooks).1
        hooks := (admitFrags (fun h => h.name) (fun _ => true)
          (hookStream store tags) acc.seenHookNames acc.hooks).2
        seenReviewIds := (admitFrags (fun b => b.id) (reviewGate allowed inc exc)
          (reviewStream store tags) acc.seenReviewIds acc.reviewBlocks).1
        reviewBlocks := (admitFrags (fun b => b.id) (reviewGate allowed inc exc)
          (reviewStream store tags) acc.seenReviewIds acc.reviewBlocks).2 } := by
  induction tags generalizing acc with
  | nil =>
    simp only [List.foldl_nil, cmStream, entryStream, nfrStream, hookStream, reviewStream,
      List.map_nil, List.flatten_nil, admitFrags]
  | cons t ts ih =>
    rw [List.foldl_cons, ih]
    cases h : mapGet store t with
    | none =>
      simp only [composeTag, h, cmStream, entryStream, nfrStream, hookStream, reviewStream,
        tagCmBlocks, tagEntries, tagNfrBlocks, tagHooks, tagReviewBlocks,
        List.map_cons, List.flatten_cons, admitFrags_append, admitFrags]
    | some set =>
      simp only [composeTag, h, cmStream, entryStream, nfrStream, hookStream, reviewStream,
        tagCmBlocks, tagEntries, tagNfrBlocks, tagHooks, tagReviewBlocks,
        List.map_cons, List.flatten_cons, admitFrags_append]

theorem composeTemplates_claudeMd_eq (tags : List Tag) (store : TemplateMap)
    (cfg : Option ForgeKitConfig) :
    (composeTemplates tags store cfg).claudeMdBlocks =
      (admitFrags (fun b => b.id)
        (cmGate (TIER_HIERARCHY ((cfg.bind (fun c => c.tier)).getD DEFAULT_TIER))
          (cfg.bind (fun c => c.include')) (cfg.bind (fun c => c.exclude)))
        (cmStream store (normalizeTagOrder tags)) [] []).2 := by
  simp only [composeTemplates, foldl_composeTag_eq, initAcc]

theorem composeTemplates_structure_eq (tags : List Tag) (store : TemplateMap)
    (cfg : Option ForgeKitConfig) :
    (composeTemplates tags store cfg).structureEntries =
      (admitFrags (fun e => e.path) (fun _ => true)
        (entryStream store (normalizeTagOrder tags)) [] []).2 := by
  simp only [composeTemplates, foldl_composeTag_eq, initAcc]

theorem composeTemplates_nfr_eq (tags : List Tag) (store : TemplateMap)
    (cfg : Option ForgeKitConfig) :
    (composeTemplates tags store cfg).nfrBlocks =
      (admitFrags (fun b => b.id)
        (nfrGate (TIER_HIERARCHY ((cfg.bind (fun c => c.tier)).getD DEFAULT_TIER))
          (cfg.bind (fun c => c.include')) (cfg.bind (fun c => c.exclude)))
        (nfrStream store (normalizeTagOrder tags)) [] []).2 := by
  simp only [composeTemplates, foldl_composeTag_eq, initAcc]

theorem composeTemplates_hooks_eq (tags : List Tag) (store : TemplateMap)
    (cfg : Option ForgeKitConfig) :
    (composeTemplates tags store cfg).hooks =
      (admitFrags (fun h => h.name) (fun _ => true)
        (hookStream store (normalizeTagOrder tags)) [] []).2 := by
  simp only [composeTemplates, foldl_composeTag_eq, initAcc]

theorem composeTemplates_review_eq (tags : List Tag) (store : TemplateMap)
    (cfg : Option ForgeKitConfig) :
    (composeTemplates tags store cfg).reviewBlocks =
      (admitFrags (fun b => b.id)
        (reviewGate (TIER_HIERARCHY ((cfg.bind (fun c => c.tier)).getD DEFAULT_TIER))
          (cfg.bind (fun c => c.include')) (cfg.bind (fun c => c.exclude)))
        (reviewStream store (normalizeTagOrder tags)) [] []).2 := by
  simp only [composeTemplates, foldl_composeTag_eq, initAcc]

/-! ### Claim theorems -/

/-- C1: the claim says `composeTemplates` lists the universal tag's
fragments first for every non-empty tag list, even when the caller placed
`UNIVERSAL` elsewhere in the list (and the source's own doc comments say the
same).  At the failing input `["API", "UNIVERSAL"]` the code leaves
`UNIVERSAL` in second position, so API's fragment precedes the universal
one. -/
theorem c1_universal_not_first_at_failing_input :
    normalizeTagOrder ["API", "UNIVERSAL"] = ["API", "UNIVERSAL"] ∧
    (composeTemplates ["API", "UNIVERSAL"] sampleStoreUA none).claudeMdBlocks =
      [sampleApiBlock, sampleUniversalBlock] := by
  exact ⟨rfl, rfl⟩

/-- C3 counterexample: a hook whose name is in the exclude list, and a
structure entry whose path is absent from a non-empty include list, both
still appear in the composed output — the include/exclude gate is not
applied to these kinds, contradicting the claim. -/
theorem c3_counterexample :
    sampleExcludingConfig.exclude = some ["h", "src/"] ∧
    sampleExcludingConfig.include' = some ["only-this"] ∧
    (composeTemplates [UNIVERSAL] sampleHookStore (some sampleExcludingConfig)).hooks =
      [sampleHook] ∧
    (composeTemplates [UNIVERSAL] sampleHookStore (some sampleExcludingConfig)).structureEntries =
      [sampleEntry] := by
  exact ⟨rfl, rfl, rfl, rfl⟩

/-- C3 amended: hook fragments and directory-structure entries skip the tier
check and also the include/exclude gate; only dedup applies, so these two
output kinds are independent of the composition config altogether. -/
theorem c3_amended (tags : List Tag) (store : TemplateMap)
    (cfg1 cfg2 : Option ForgeKitConfig) :
    (composeTemplates tags store cfg1).hooks = (composeTemplates tags store cfg2).hooks ∧
    (composeTemplates tags store cfg1).structureEntries =
      (composeTemplates tags store cfg2).structureEntries := by
  constructor
  · rw [composeTemplates_hooks_eq, composeTemplates_hooks_eq]
  · rw [composeTemplates_structure_eq, composeTemplates_structure_eq]

/-- C9: in every composed output, within any one fragment kind no two
fragments share an identity: instruction, NFR and review blocks have
pairwise distinct ids, structure entries pairwise distinct paths, and hooks
pairwise distinct names. -/
theorem c9_no_duplicate_identities (tags : List Tag) (store : TemplateMap)
    (cfg : Option ForgeKitConfig) :
    ((composeTemplates tags store cfg).claudeMdBlocks.map (fun b => b.id)).Nodup ∧
    ((composeTemplates tags store cfg).structureEntries.map (fun e => e.path)).Nodup ∧
    ((composeTemplates tags store cfg).nfrBlocks.map (fun b => b.id)).Nodup ∧
    ((composeTemplates tags store cfg).hooks.map (fun h => h.name)).Nodup ∧
    ((composeTemplates tags store cfg).reviewBlocks.map (fun b => b.id)).Nodup := by
  refine ⟨?_, ?_, ?_, ?_, ?_⟩
  · rw [composeTemplates_claudeMd_eq]
    exact admitFrags_nodup_keys _ _ _ _ _ (by simp) (by simp)
  · rw [composeTemplates_structure_eq]
    exact admitFrags_nodup_keys _ _ _ _ _ (by simp) (by simp)
  · rw [composeTemplates_nfr_eq]
    exact admitFrags_nodup_keys _ _ _ _ _ (by simp) (by simp)
  · rw [composeTemplates_hooks_eq]
    exact admitFrags_nodup_keys _ _ _ _ _ (by simp) (by simp)
  · rw [composeTemplates_review_eq]
    exact admitFrags_nodup_keys _ _ _ _ _ (by simp) (by simp)

/-- C10: the empty requested tag list normalizes to exactly `[UNIVERSAL]`,
so composing for `[]` equals composing for `[UNIVERSAL]` — the
universal-presence behavior extends to the empty list. -/
theorem c10_empty_tag_list (store : TemplateMap) (cfg : Option ForgeKitConfig) :
    normalizeTagOrder [] = [UNIVERSAL] ∧
    composeTemplates [] store cfg = composeTemplates [UNIVERSAL] store cfg := by
  have h0 : normalizeTagOrder [] = [UNIVERSAL] := rfl
  have h1 : normalizeTagOrder [UNIVERSAL] = [UNIVERSAL] := rfl
  refine ⟨h0, ?_⟩
  simp only [composeTemplates]
  rw [h0, h1]

theorem tierLe_hierarchy_subset (t1 t2 : ContentTier) (h : tierLe t1 t2 = true) :
    ∀ x ∈ TIER_HIERARCHY t1, x ∈ TIER_HIERARCHY t2 := by
  revert h
  cases t1 <;> cases t2 <;> decide

theorem cmGate_mono (t1 t2 : ContentTier) (h : tierLe t1 t2 = true)
    (inc exc : Option (List String)) (b : ClaudeMdBlock)
    (hb : cmGate (TIER_HIERARCHY t1) inc exc b = true) :
    cmGate (TIER_HIERARCHY t2) inc exc b = true := by
  simp only [cmGate, Bool.and_eq_true] at hb ⊢
  refine ⟨?_, hb.2⟩
  have h1 := hb.1
  simp only [isTierAllowed, decide_eq_true_eq] at h1 ⊢
  exact tierLe_hierarchy_subset t1 t2 h _ h1

theorem nfrGate_mono (t1 t2 : ContentTier) (h : tierLe t1 t2 = true)
    (inc exc : Option (List String)) (b : NfrBlock)
    (hb : nfrGate (TIER_HIERARCHY t1) inc exc b = true) :
    nfrGate (TIER_HIERARCHY t2) inc exc b = true := by
  simp only [nfrGate, Bool.and_eq_true] at hb ⊢
  refine ⟨?_, hb.2⟩
  have h1 := hb.1
  simp only [isTierAllowed, decide_eq_true_eq] at h1 ⊢
  exact tierLe_hierarchy_subset t1 t2 h _ h1

theorem reviewGate_mono (t1 t2 : ContentTier) (h : tierLe t1 t2 = true)
    (inc exc : Option (List String)) (b : ReviewBlock)
    (hb : reviewGate (TIER_HIERARCHY t1) inc exc b = true) :
    reviewGate (TIER_HIERARCHY t2) inc exc b = true := by
  simp only [reviewGate, Bool.and_eq_true] at hb ⊢
  refine ⟨?_, hb.2⟩
  have h1 := hb.1
  simp only [isTierAllowed, decide_eq_true_eq] at h1 ⊢
  exact tierLe_hierarchy_subset t1 t2 h _ h1

/-- C6 counterexample: when two tags carry different fragments under the
same id, composing at tier `core` admits API's copy while composing at tier
`recommended` admits UNIVERSAL's copy, so the core output is not a subset of
the recommended output at the level of fragment sequences. -/
theorem c6_counterexample :
    (composeTemplates ["API"] sampleDupIdStore
      (some { samplePlainConfig with tier := some .core })).claudeMdBlocks =
      [sampleXFromApi] ∧
    (composeTemplates ["API"] sampleDupIdStore
      (some { samplePlainConfig with tier := some .recommended })).claudeMdBlocks =
      [sampleXFromUniversal] ∧
    sampleXFromApi ∉ (composeTemplates ["API"] sampleDupIdStore
      (some { samplePlainConfig with tier := some .recommended })).claudeMdBlocks := by
  refine ⟨rfl, rfl, ?_⟩
  decide

/-- C6 amended: tier monotonicity holds per kind at the level of fragment
identities: every id composed at a lower tier is composed at any higher
tier (same store, tags, include/exclude), and the non-tiered kinds
(structure entries, hooks) are unchanged across tiers.  Subset of the full
fragment sequences fails when dedup picks same-id fragments from different
tags (see the counterexample). -/
theorem c6_amended (tags : List Tag) (store : TemplateMap) (cfg : ForgeKitConfig)
    (t1 t2 : ContentTier) (h : tierLe t1 t2 = true) :
    (∀ i ∈ (composeTemplates tags store
        (some { cfg with tier := some t1 })).claudeMdBlocks.map (fun b => b.id),
      i ∈ (composeTemplates tags store
        (some { cfg with tier := some t2 })).claudeMdBlocks.map (fun b => b.id)) ∧
    (∀ i ∈ (composeTemplates tags store
        (some { cfg with tier := some t1 })).nfrBlocks.map (fun b => b.id),
      i ∈ (composeTemplates tags store
        (some { cfg with tier := some t2 })).nfrBlocks.map (fun b => b.id)) ∧
    (∀ i ∈ (composeTemplates tags store
        (some { cfg with tier := some t1 })).reviewBlocks.map (fun b => b.id),
      i ∈ (composeTemplates tags store
        (some { cfg with tier := some t2 })).reviewBlocks.map (fun b => b.id)) ∧
    (composeTemplates tags store (some { cfg with tier := some t1 })).structureEntries =
      (composeTemplates tags store (some { cfg with tier := some t2 })).structureEntries ∧
    (composeTemplates tags store (some { cfg with tier := some t1 })).hooks =
      (composeTemplates tags store (some { cfg with tier := some t2 })).hooks := by
  refine ⟨?_, ?_, ?_, ?_, ?_⟩
  · intro i hi
    rw [composeTemplates_claudeMd_eq] at hi ⊢
    exact admitFrags_keys_mono _ _ _ (fun b hb => cmGate_mono t1 t2 h _ _ b hb) _ i hi
  · intro i hi
    rw [composeTemplates_nfr_eq] at hi ⊢
    exact admitFrags_keys_mono _ _ _ (fun b hb => nfrGate_mono t1 t2 h _ _ b hb) _ i hi
  · intro i hi
    rw [composeTemplates_review_eq] at hi ⊢
    exact admitFrags_keys_mono _ _ _ (fun b hb => reviewGate_mono t1 t2 h _ _ b hb) _ i hi
  · rw [composeTemplates_structure_eq, composeTemplates_structure_eq]
  · rw [composeTemplates_hooks_eq, composeTemplates_hooks_eq]

/-- C6 amended, witnessed at tiers core ≤ optional on the duplicate-id
store: the id composed at core is also composed at optional. -/
theorem c6_amended_witness :
    tierLe .core .optional = true ∧
    "x" ∈ (composeTemplates ["API"] sampleDupIdStore
      (some { samplePlainConfig with tier := some .optional })).claudeMdBlocks.map
        (fun b => b.id) :=
  ⟨rfl, (c6_amended ["API"] sampleDupIdStore samplePlainConfig .core .optional rfl).1 "x"
    (by decide)⟩

theorem loadAllTemplatesGo_error (sources : List (String × TagSource))
    (dn : String) (src : TagSource) (t : Tag) (e : TemplateParseError)
    (hmem : (dn, src) ∈ sources) (htag : tagDirNameToTag dn = some t)
    (hfail : loadTagTemplateSet t dn src = .error e) (acc : TemplateMap) :
    (loadAllTemplatesGo sources acc).isOk = false := by
  induction sources generalizing acc with
  | nil => cases hmem
  | cons p rest ih =>
    obtain ⟨dn', src'⟩ := p
    rcases List.mem_cons.1 hmem with heq | hrest
    · obtain ⟨h1, h2⟩ := Prod.mk.injEq .. ▸ heq
      subst h1
      subst h2
      simp only [loadAllTemplatesGo, htag, hfail]
      rfl
    · simp only [loadAllTemplatesGo]
      cases htag' : tagDirNameToTag dn' with
      | none => exact ih hrest _
      | some t' =>
        show (match loadTagTemplateSet t' dn' src' with
          | Except.error e => (Except.error e : Except TemplateParseError TemplateMap)
          | Except.ok templateSet =>
            loadAllTemplatesGo rest (mapSet acc t' templateSet)).isOk = false
        cases loadTagTemplateSet t' dn' src' with
        | error e' => rfl
        | ok ts => exact ih hrest _

/-- C2 counterexample: with one malformed tag source (`api/nfr.yaml`), the
whole build throws `TemplateParseError` — no store is returned at all, so
the other tag's set does not appear in a returned store; the same sources
minus the malformed tag load fine. -/
theorem c2_counterexample :
    loadAllTemplates sampleBadSources =
      .error ⟨"api/nfr.yaml", "bad indent"⟩ ∧
    loadAllTemplates [("universal", sampleOkSource)] =
      .ok [("UNIVERSAL", ⟨"UNIVERSAL", none, none, none, none, none⟩)] := by
  exact ⟨rfl, rfl⟩

/-- C2 amended: a parse failure in any known tag's source file is fatal to
the whole build: the thrown `TemplateParseError` propagates out of
`loadAllTemplates`, which therefore returns no store (only a *missing* file
is non-fatal). -/
theorem c2_amended (sources : List (String × TagSource)) (dn : String)
    (src : TagSource) (t : Tag) (e : TemplateParseError)
    (hmem : (dn, src) ∈ sources) (htag : tagDirNameToTag dn = some t)
    (hfail : loadTagTemplateSet t dn src = .error e) :
    (loadAllTemplates sources).isOk = false :=
  loadAllTemplatesGo_error sources dn src t e hmem htag hfail []

/-- C2 amended, witnessed on the sample sources with the malformed
`api/nfr.yaml`. -/
theorem c2_amended_witness :
    ("api", sampleBadSource) ∈ sampleBadSources ∧
    tagDirNameToTag "api" = some "API" ∧
    (loadAllTemplates sampleBadSources).isOk = false :=
  ⟨by simp [sampleBadSources], rfl,
    c2_amended sampleBadSources "api" sampleBadSource "API"
      ⟨"api/nfr.yaml", "bad indent"⟩ (by simp [sampleBadSources]) rfl rfl⟩

/-- C4 counterexample: a drift pass in which the proposed configuration
adds an NFR block (0 before, 1 after) while the report's only count field,
`blockCountDelta`, shows `(0, 0)` — the NFR change is invisible, so the
delta is not reported per fragment kind. -/
theorem c4_counterexample :
    (analyzeDrift sampleDriftConfig none none none [sampleApiDetection] ([], [])
      sampleDriftStore).blockCountDelta = (0, 0) ∧
    computeUpdatedTags ["UNIVERSAL"]
      (newTagSuggestions ["UNIVERSAL"] [sampleApiDetection]) none none =
      ["UNIVERSAL", "API"] ∧
    (composeTemplates ["UNIVERSAL"] sampleDriftStore
      (some sampleDriftConfig)).nfrBlocks.length = 0 ∧
    (composeTemplates ["UNIVERSAL", "API"] sampleDriftStore
      (some { sampleDriftConfig with
                tags := some ["UNIVERSAL", "API"],
                tier := some .recommended })).nfrBlocks.length = 1 := by
  have hp : decide (SUGGEST_THRESHOLD ≤ sampleApiDetection.confidence ∧
      sampleApiDetection.tag ∉ (["UNIVERSAL"] : List Tag)) = true := by
    apply decide_eq_true
    constructor
    · norm_num [SUGGEST_THRESHOLD, sampleApiDetection]
    · decide
  have hsugg : newTagSuggestions ["UNIVERSAL"] [sampleApiDetection] =
      [⟨"API", 0.65, ["dep"]⟩] := by
    simp only [newTagSuggestions, List.filter_cons, List.filter_nil, hp, if_pos]
    simp [sampleApiDetection]
  have hupd : computeUpdatedTags ["UNIVERSAL"] [⟨"API", 0.65, ["dep"]⟩] none none =
      ["UNIVERSAL", "API"] := by
    simp only [computeUpdatedTags, List.foldl_cons, List.foldl_nil, Option.getD_none]
    rw [if_pos (show (0.6 : ℚ) ≤ (0.65 : ℚ) by norm_num)]
    rfl
  refine ⟨?_, ?_, rfl, rfl⟩
  · show (analyzeDrift sampleDriftConfig none none none [sampleApiDetection] ([], [])
      sampleDriftStore).blockCountDelta = (0, 0)
    simp only [analyzeDrift, sampleDriftConfig, Option.getD_some, Option.getD_none]
    rw [hsugg, hupd]
    rfl
  · rw [hsugg]
    exact hupd

/-- C4 amended: the drift report's count delta does compose twice — once
under the existing configuration and once under the proposed
(post-resolution) configuration — but it reports the before/after count of
the instruction-block kind only (`claudeMdBlocks`), not a per-kind
breakdown. -/
theorem c4_amended (config : ForgeKitConfig) (argsTier : Option ContentTier)
    (addTags removeTags : Option (List Tag)) (detections : List Detection)
    (completeness : List String × List String) (allTemplates : TemplateMap) :
    (analyzeDrift config argsTier addTags removeTags detections completeness
      allTemplates).blockCountDelta =
      ((composeTemplates (config.tags.getD [UNIVERSAL]) allTemplates
          (some config)).claudeMdBlocks.length,
       (composeTemplates
          (computeUpdatedTags (config.tags.getD [UNIVERSAL])
            (newTagSuggestions (config.tags.getD [UNIVERSAL]) detections)
            addTags removeTags)
          allTemplates
          (some { config with
                    tags := some (computeUpdatedTags (config.tags.getD [UNIVERSAL])
                      (newTagSuggestions (config.tags.getD [UNIVERSAL]) detections)
                      addTags removeTags),
                    tier := some (argsTier.getD (config.tier.getD .recommended))
                })).claudeMdBlocks.length) :=
  rfl

theorem mem_setAdd_self (s : List Tag) (t : Tag) : t ∈ setAdd s t := by
  by_cases h : t ∈ s
  · simp [setAdd, h]
  · simp [setAdd, h]

/-- C8: the resolved tag set always contains `UNIVERSAL`, for every input —
current tags, suggestions, explicit adds, and explicit removes (including a
remove list containing `UNIVERSAL`). -/
theorem c8_universal_never_removed (currentTags : List Tag)
    (suggestions : List Suggestion) (addTags removeTags : Option (List Tag)) :
    UNIVERSAL ∈ computeUpdatedTags currentTags suggestions addTags removeTags := by
  simp only [computeUpdatedTags]
  exact mem_setAdd_self _ _

theorem mem_setAdd_iff (s : List Tag) (t x : Tag) :
    x ∈ setAdd s t ↔ x ∈ s ∨ x = t := by
  by_cases h : t ∈ s
  · simp only [setAdd, if_pos h]
    constructor
    · exact Or.inl
    · rintro (hx | rfl)
      · exact hx
      · exact h
  · simp only [setAdd, if_neg h, List.mem_append, List.mem_singleton]

theorem mem_foldl_setAdd (l : List Tag) (s : List Tag) (x : Tag) :
    x ∈ l.foldl setAdd s ↔ x ∈ s ∨ x ∈ l := by
  induction l generalizing s with
  | nil => simp
  | cons a rest ih =>
    rw [List.foldl_cons, ih, mem_setAdd_iff]
    simp only [List.mem_cons]
    tauto

theorem mem_foldl_suggAdd (sgs : List Suggestion) (s : List Tag) (x : Tag) :
    x ∈ sgs.foldl
      (fun s sg => if (0.6 : ℚ) ≤ sg.confidence then setAdd s sg.tag else s) s ↔
      x ∈ s ∨ ∃ sg, sg ∈ sgs ∧ sg.tag = x ∧ (0.6 : ℚ) ≤ sg.confidence := by
  induction sgs generalizing s with
  | nil => simp
  | cons a rest ih =>
    rw [List.foldl_cons, ih]
    by_cases h : (0.6 : ℚ) ≤ a.confidence
    · rw [if_pos h, mem_setAdd_iff]
      constructor
      · rintro ((hx | rfl) | ⟨sg, hsg, rfl, hc⟩)
        · exact Or.inl hx
        · exact Or.inr ⟨a, List.mem_cons_self _ _, rfl, h⟩
        · exact Or.inr ⟨sg, List.mem_cons_of_mem _ hsg, rfl, hc⟩
      · rintro (hx | ⟨sg, hsg, rfl, hc⟩)
        · exact Or.inl (Or.inl hx)
        · rcases List.mem_cons.1 hsg with heq | hsg'
          · subst heq
            exact Or.inl (Or.inr rfl)
          · exact Or.inr ⟨sg, hsg', rfl, hc⟩
    · rw [if_neg h]
      constructor
      · rintro (hx | ⟨sg, hsg, rfl, hc⟩)
        · exact Or.inl hx
        · exact Or.inr ⟨sg, List.mem_cons_of_mem _ hsg, rfl, hc⟩
      · rintro (hx | ⟨sg, hsg, rfl, hc⟩)
        · exact Or.inl hx
        · rcases List.mem_cons.1 hsg with heq | hsg'
          · subst heq
            exact absurd hc h
          · exact Or.inr ⟨sg, hsg', rfl, hc⟩

theorem mem_foldl_remove_of (rs : List Tag) (s : List Tag) (x : Tag)
    (hs : x ∈ s) (hnr : x ∉ rs) :
    x ∈ rs.foldl (fun s t => if t ≠ UNIVERSAL then setDelete s t else s) s := by
  induction rs generalizing s with
  | nil => exact hs
  | cons a rest ih =>
    rw [List.foldl_cons]
    have hne : x ≠ a := fun h => hnr (h ▸ List.mem_cons_self _ _)
    have hnr' : x ∉ rest := fun h => hnr (List.mem_cons_of_mem _ h)
    by_cases h : a ≠ UNIVERSAL
    · rw [if_pos h]
      refine ih _ ?_ hnr'
      simp only [setDelete, List.mem_filter, decide_eq_true_eq]
      exact ⟨hs, hne⟩
    · rw [if_neg h]
      exact ih _ hs hnr'

theorem mem_of_mem_foldl_remove (rs : List Tag) (s : List Tag) (x : Tag)
    (hx : x ∈ rs.foldl (fun s t => if t ≠ UNIVERSAL then setDelete s t else s) s) :
    x ∈ s := by
  induction rs generalizing s with
  | nil => exact hx
  | cons a rest ih =>
    rw [List.foldl_cons] at hx
    have hstep := ih _ hx
    by_cases h : a ≠ UNIVERSAL
    · rw [if_pos h] at hstep
      simp only [setDelete, List.mem_filter] at hstep
      exact hstep.1
    · rw [if_neg h] at hstep
      exact hstep

theorem suggestion_mem (currentTags : List Tag) (detections : List Detection)
    (d : Detection) (hd : d ∈ detections)
    (hconf : SUGGEST_THRESHOLD ≤ d.confidence) (hnew : d.tag ∉ currentTags) :
    (⟨d.tag, d.confidence, d.evidence⟩ : Suggestion) ∈
      newTagSuggestions currentTags detections := by
  simp only [newTagSuggestions, List.mem_map]
  refine ⟨d, ?_, rfl⟩
  simp only [List.mem_filter, decide_eq_true_eq]
  exact ⟨hd, hconf, hnew⟩

theorem suggestion_sound (currentTags : List Tag) (detections : List Detection)
    (sg : Suggestion) (hsg : sg ∈ newTagSuggestions currentTags detections) :
    ∃ d', d' ∈ detections ∧ d'.tag = sg.tag ∧ d'.confidence = sg.confidence := by
  simp only [newTagSuggestions, List.mem_map] at hsg
  obtain ⟨d', hd', rfl⟩ := hsg
  exact ⟨d', (List.mem_filter.1 hd').1, rfl, rfl⟩

/-- C7: during a resolution/refresh pass, a detection for a tag not already
configured is auto-added to the resolved tag set when its confidence is
`≥ 0.6` (unless explicitly removed in the same pass), while a detection
with `0.5 ≤ confidence < 0.6` appears in the drift report's suggestions but
does not change the tag set (given a valid configuration containing
`UNIVERSAL`, no explicit add for it, and no other qualifying detection of
the same tag). -/
theorem c7_threshold_policy (currentTags : List Tag) (detections : List Detection)
    (addTags removeTags : Option (List Tag)) (d : Detection)
    (hd : d ∈ detections) (hnew : d.tag ∉ currentTags) :
    ((0.6 : ℚ) ≤ d.confidence → d.tag ∉ removeTags.getD [] →
      d.tag ∈ computeUpdatedTags currentTags
        (newTagSuggestions currentTags detections) addTags removeTags) ∧
    (SUGGEST_THRESHOLD ≤ d.confidence → d.confidence < 0.6 →
      (⟨d.tag, d.confidence, d.evidence⟩ : Suggestion) ∈
        newTagSuggestions currentTags detections ∧
      (UNIVERSAL ∈ currentTags → d.tag ∉ addTags.getD [] →
        (∀ d', d' ∈ detections → d'.tag = d.tag → d'.confidence < 0.6) →
        d.tag ∉ computeUpdatedTags currentTags
          (newTagSuggestions currentTags detections) addTags removeTags)) := by
  constructor
  · intro h6 hnr
    have hconf : SUGGEST_THRESHOLD ≤ d.confidence := by
      refine le_trans ?_ h6
      norm_num [SUGGEST_THRESHOLD]
    simp only [computeUpdatedTags]
    refine (mem_setAdd_iff _ _ _).2 (Or.inl ?_)
    refine mem_foldl_remove_of _ _ _ ?_ hnr
    refine (mem_foldl_setAdd _ _ _).2 (Or.inl ?_)
    refine (mem_foldl_suggAdd _ _ _).2 (Or.inr ?_)
    exact ⟨⟨d.tag, d.confidence, d.evidence⟩,
      suggestion_mem currentTags detections d hd hconf hnew, rfl, h6⟩
  · intro h5 h6lt
    refine ⟨suggestion_mem currentTags detections d hd h5 hnew, ?_⟩
    intro hU hna hnone hmem
    simp only [computeUpdatedTags] at hmem
    rcases (mem_setAdd_iff _ _ _).1 hmem with hS4 | heq
    · have hS3 := mem_of_mem_foldl_remove _ _ _ hS4
      rcases (mem_foldl_setAdd _ _ _).1 hS3 with hS2 | hadd
      · rcases (mem_foldl_suggAdd _ _ _).1 hS2 with hS1 | ⟨sg, hsg, htag, hconf⟩
        · rcases (mem_foldl_setAdd _ _ _).1 hS1 with h0 | hcur
          · cases h0
          · exact hnew hcur
        · obtain ⟨d', hd', htag', hcf'⟩ := suggestion_sound _ _ _ hsg
          have hlt : d'.confidence < 0.6 := hnone d' hd' (htag'.trans htag)
          rw [hcf'] at hlt
          exact absurd hconf (not_le.2 hlt)
      · exact hna hadd
    · exact hnew (heq ▸ hU)

/-- C7 witnessed at the spec's Example 3: `api` at 0.65 is auto-added,
`mobile` at 0.55 is suggested but the tag set is unchanged. -/
theorem c7_witness :
    "API" ∈ computeUpdatedTags ["UNIVERSAL"]
      (newTagSuggestions ["UNIVERSAL"] [sampleApiDetection, sampleMobileDetection])
      none none ∧
    (⟨"MOBILE", 0.55, ["m"]⟩ : Suggestion) ∈
      newTagSuggestions ["UNIVERSAL"] [sampleApiDetection, sampleMobileDetection] ∧
    "MOBILE" ∉ computeUpdatedTags ["UNIVERSAL"]
      (newTagSuggestions ["UNIVERSAL"] [sampleApiDetection, sampleMobileDetection])
      none none := by
  refine ⟨?_, ?_, ?_⟩
  · exact (c7_threshold_policy ["UNIVERSAL"]
      [sampleApiDetection, sampleMobileDetection] none none sampleApiDetection
      (List.mem_cons_self _ _) (by decide)).1 (by norm_num [sampleApiDetection])
      (by simp)
  · exact ((c7_threshold_policy ["UNIVERSAL"]
      [sampleApiDetection, sampleMobileDetection] none none sampleMobileDetection
      (List.mem_cons_of_mem _ (List.mem_cons_self _ _)) (by decide)).2
      (by norm_num [sampleMobileDetection, SUGGEST_THRESHOLD])
      (by norm_num [sampleMobileDetection])).1
  · exact ((c7_threshold_policy ["UNIVERSAL"]
      [sampleApiDetection, sampleMobileDetection] none none sampleMobileDetection
      (List.mem_cons_of_mem _ (List.mem_cons_self _ _)) (by decide)).2
      (by norm_num [sampleMobileDetection, SUGGEST_THRESHOLD])
      (by norm_num [sampleMobileDetection])).2
      (List.mem_cons_self _ _) (by simp)
      (by
        intro d' hd' htag
        rcases List.mem_cons.1 hd' with rfl | hd''
        · exact absurd htag (by decide)
        · rcases List.mem_cons.1 hd'' with rfl | h0
          · norm_num [sampleMobileDetection]
          · cases h0)

/-! ### Merge preservation (C5) -/

theorem kindPreserved_refl {β : Type} (key : β → String) (l : List β) :
    kindPreserved key l l :=
  ⟨List.prefix_refl _, fun _ hb _ => hb⟩

theorem kindPreserved_trans {β : Type} (key : β → String) (a b c : List β)
    (h1 : kindPreserved key a b) (h2 : kindPreserved key b c) :
    kindPreserved key a c := by
  refine ⟨h1.1.trans h2.1, fun x hxc hxa => ?_⟩
  exact h1.2 x (h2.2 x hxc ((h1.1.map key).subset hxa)) hxa

theorem kindPreserved_append_filter {β : Type} (key : β → String) (bb eb : List β) :
    kindPreserved key bb (bb ++ eb.filter (fun b => decide (key b ∉ bb.map key))) := by
  refine ⟨List.prefix_append _ _, fun b hb hk => ?_⟩
  rcases List.mem_append.1 hb with hbb | hbf
  · exact hbb
  · have := (List.mem_filter.1 hbf).2
    exact absurd hk (of_decide_eq_true this)

theorem mergeInstr_preserved (base extra : Option ClaudeMdTemplate) :
    kindPreserved (fun b => b.id) (cmBlocksOf base)
      (cmBlocksOf (mergeInstructionTemplates base extra)) := by
  cases extra with
  | none => cases base <;> exact kindPreserved_refl _ _
  | some e =>
    cases base with
    | none =>
      refine ⟨List.nil_prefix, fun b hb hk => ?_⟩
      simp [cmBlocksOf] at hk
    | some bt =>
      simp only [mergeInstructionTemplates, cmBlocksOf]
      exact kindPreserved_append_filter _ _ _

theorem mergeNfr_preserved (base extra : Option NfrTemplate) :
    kindPreserved (fun b => b.id) (nfrBlocksOf base)
      (nfrBlocksOf (mergeNfrTemplates base extra)) := by
  cases extra with
  | none => cases base <;> exact kindPreserved_refl _ _
  | some e =>
    cases base with
    | none =>
      refine ⟨List.nil_prefix, fun b hb hk => ?_⟩
      simp [nfrBlocksOf] at hk
    | some bt =>
      simp only [mergeNfrTemplates, nfrBlocksOf]
      exact kindPreserved_append_filter _ _ _

theorem mergeHooks_preserved (base extra : Option (List HookTemplate)) :
    kindPreserved (fun h => h.name) (hooksOf base)
      (hooksOf (mergeHookTemplates base extra)) := by
  cases extra with
  | none => cases base <;> exact kindPreserved_refl _ _
  | some e =>
    cases base with
    | none =>
      refine ⟨List.nil_prefix, fun b hb hk => ?_⟩
      simp [hooksOf] at hk
    | some bt =>
      simp only [mergeHookTemplates, hooksOf, Option.getD_some]
      exact kindPreserved_append_filter _ _ _

theorem mergeReview_preserved (base extra : Option ReviewTemplate) :
    kindPreserved (fun b => b.id) (reviewBlocksOf base)
      (reviewBlocksOf (mergeReviewTemplates base extra)) := by
  cases extra with
  | none => cases base <;> exact kindPreserved_refl _ _
  | some e =>
    cases base with
    | none =>
      refine ⟨List.nil_prefix, fun b hb hk => ?_⟩
      simp [reviewBlocksOf] at hk
    | some bt =>
      simp only [mergeReviewTemplates, reviewBlocksOf]
      exact kindPreserved_append_filter _ _ _

theorem mergePreserves_refl (s : TagTemplateSet) : mergePreserves s s :=
  ⟨kindPreserved_refl _ _, kindPreserved_refl _ _, kindPreserved_refl _ _,
    kindPreserved_refl _ _⟩

theorem mergePreserves_trans {a b c : TagTemplateSet}
    (h1 : mergePreserves a b) (h2 : mergePreserves b c) : mergePreserves a c :=
  ⟨kindPreserved_trans _ _ _ _ h1.1 h2.1,
   kindPreserved_trans _ _ _ _ h1.2.1 h2.2.1,
   kindPreserved_trans _ _ _ _ h1.2.2.1 h2.2.2.1,
   kindPreserved_trans _ _ _ _ h1.2.2.2 h2.2.2.2⟩

theorem mergePreserves_merge (tag : Tag) (bs es : TagTemplateSet) :
    mergePreserves bs (mergeTagTemplateSet tag bs es) :=
  ⟨mergeInstr_preserved _ _, mergeNfr_preserved _ _, mergeHooks_preserved _ _,
    mergeReview_preserved _ _⟩

theorem mapGet_map_replace (m : TemplateMap) (t : Tag) (v : TagTemplateSet)
    (h : m.any (fun p => p.1 = t) = true) :
    mapGet (m.map (fun p => if p.1 = t then (t, v) else p)) t = some v := by
  induction m with
  | nil => simp at h
  | cons p rest ih =>
    by_cases hp : p.1 = t
    · rw [List.map_cons, if_pos hp]
      simp only [mapGet]
      rw [List.find?_cons_of_pos _ (by simp)]
      rfl
    · rw [List.map_cons, if_neg hp]
      have h' : rest.any (fun p => p.1 = t) = true := by
        simp only [List.any_cons, Bool.or_eq_true, decide_eq_true_eq] at h
        rcases h with h | h
        · exact absurd h hp
        · exact h
      simp only [mapGet]
      rw [List.find?_cons_of_neg _ (by simp [hp])]
      exact ih h'

theorem mapGet_append_single (m : TemplateMap) (t : Tag) (v : TagTemplateSet)
    (h : m.any (fun p => p.1 = t) = false) :
    mapGet (m ++ [(t, v)]) t = some v := by
  induction m with
  | nil =>
    simp only [List.nil_append, mapGet]
    rw [List.find?_cons_of_pos _ (by simp)]
    rfl
  | cons p rest ih =>
    simp only [List.any_cons, Bool.or_eq_false_iff] at h
    simp only [List.cons_append, mapGet]
    rw [List.find?_cons_of_neg _ (by simp [h.1])]
    exact ih h.2

theorem mapGet_mapSet_self (m : TemplateMap) (t : Tag) (v : TagTemplateSet) :
    mapGet (mapSet m t v) t = some v := by
  simp only [mapSet]
  split
  case isTrue h => exact mapGet_map_replace m t v h
  case isFalse h => exact mapGet_append_single m t v (Bool.eq_false_iff.2 h)

theorem mapGet_map_replace_ne (m : TemplateMap) (t : Tag) (v : TagTemplateSet)
    (t' : Tag) (h : t' ≠ t) :
    mapGet (m.map (fun p => if p.1 = t then (t, v) else p)) t' = mapGet m t' := by
  induction m with
  | nil => rfl
  | cons p rest ih =>
    by_cases hp : p.1 = t
    · rw [List.map_cons, if_pos hp]
      simp only [mapGet]
      rw [List.find?_cons_of_neg _
          (by simp only [decide_eq_true_eq]; exact fun hc => h hc.symm),
        List.find?_cons_of_neg _
          (by simp only [decide_eq_true_eq, hp]; exact fun hc => h hc.symm)]
      exact ih
    · rw [List.map_cons, if_neg hp]
      simp only [mapGet]
      by_cases hq : p.1 = t'
      · rw [List.find?_cons_of_pos _ (by simp [hq]), List.find?_cons_of_pos _ (by simp [hq])]
      · rw [List.find?_cons_of_neg _ (by simp [hq]), List.find?_cons_of_neg _ (by simp [hq])]
        exact ih

theorem mapGet_append_single_ne (m : TemplateMap) (t : Tag) (v : TagTemplateSet)
    (t' : Tag) (h : t' ≠ t) :
    mapGet (m ++ [(t, v)]) t' = mapGet m t' := by
  induction m with
  | nil =>
    simp only [List.nil_append, mapGet]
    rw [List.find?_cons_of_neg _
        (by simp only [decide_eq_true_eq]; exact fun hc => h hc.symm)]
  | cons p rest ih =>
    simp only [List.cons_append, mapGet]
    by_cases hq : p.1 = t'
    · rw [List.find?_cons_of_pos _ (by simp [hq]), List.find?_cons_of_pos _ (by simp [hq])]
    · rw [List.find?_cons_of_neg _ (by simp [hq]), List.find?_cons_of_neg _ (by simp [hq])]
      exact ih

theorem mapGet_mapSet_ne (m : TemplateMap) (t : Tag) (v : TagTemplateSet)
    (t' : Tag) (h : t' ≠ t) :
    mapGet (mapSet m t v) t' = mapGet m t' := by
  simp only [mapSet]
  split
  · exact mapGet_map_replace_ne m t v t' h
  · exact mapGet_append_single_ne m t v t' h

theorem mergeExtra_preserves (e : TemplateMap) :
    ∀ (cur : TemplateMap) (t : Tag) (cs : TagTemplateSet),
      mapGet cur t = some cs →
      ∃ ms, mapGet (mergeExtra cur e) t = some ms ∧ mergePreserves cs ms := by
  induction e with
  | nil => exact fun cur t cs h => ⟨cs, h, mergePreserves_refl _⟩
  | cons p ps ih =>
    intro cur t cs h
    show ∃ ms, mapGet (mergeExtra
      (match mapGet cur p.1 with
        | none => mapSet cur p.1 p.2
        | some baseSet => mapSet cur p.1 (mergeTagTemplateSet p.1 baseSet p.2)) ps) t =
        some ms ∧ mergePreserves cs ms
    cases hget : mapGet cur p.1 with
    | none =>
      have hne : t ≠ p.1 := by
        intro hteq
        rw [hteq, hget] at h
        cases h
      have hcur : mapGet (mapSet cur p.1 p.2) t = some cs := by
        rw [mapGet_mapSet_ne _ _ _ _ hne]
        exact h
      exact ih _ t cs hcur
    | some bs' =>
      by_cases hteq : t = p.1
      · subst hteq
        rw [h] at hget
        have hbs : bs' = cs := (Option.some.inj hget).symm
        subst hbs
        have hcur : mapGet (mapSet cur p.1 (mergeTagTemplateSet p.1 bs' p.2)) p.1 =
            some (mergeTagTemplateSet p.1 bs' p.2) := mapGet_mapSet_self _ _ _
        obtain ⟨ms, hms, hR⟩ := ih _ p.1 (mergeTagTemplateSet p.1 bs' p.2) hcur
        exact ⟨ms, hms, mergePreserves_trans (mergePreserves_merge _ _ _) hR⟩
      · have hcur : mapGet (mapSet cur p.1 (mergeTagTemplateSet p.1 bs' p.2)) t = some cs := by
          rw [mapGet_mapSet_ne _ _ _ _ hteq]
          exact h
        exact ih _ t cs hcur

/-- C5 counterexample: merging an extension store whose structure template
reuses the base's entry path replaces the base's structure template
wholesale — the base entry's payload (`description = "base"`) is gone from
the merged store and the extension's payload is the one present,
contradicting first-writer-wins for the directory-structure kind. -/
theorem c5_counterexample :
    mapGet (loadAllTemplatesWithExtras sampleBaseStore [sampleExtStore]) "UNIVERSAL" =
      some sampleMergedSet ∧
    sampleBaseSet.structure' = some sampleBaseStructure ∧
    sampleMergedSet.structure' = some sampleExtStructure ∧
    sampleBaseStructure.entries = [⟨"src/", "directory", some "base", none⟩] ∧
    (⟨"src/", "directory", some "base", none⟩ : StructureEntry) ∉
      entriesOf sampleMergedSet.structure' := by
  refine ⟨rfl, rfl, rfl, rfl, ?_⟩
  decide

/-- C5 amended: for the four additively merged fragment kinds (instruction,
NFR, hook, review), the merge never removes or overwrites a base fragment:
the base list stays a prefix of the merged list, and a merged fragment
whose id/name already occurs in the base is the base's own fragment (the
extension duplicate is dropped).  The structure template instead follows
replace-if-present, as the counterexample shows. -/
theorem c5_amended (base : TemplateMap) (extraMaps : List TemplateMap) (t : Tag)
    (bs : TagTemplateSet) (h : mapGet base t = some bs) :
    ∃ ms, mapGet (loadAllTemplatesWithExtras base extraMaps) t = some ms ∧
      mergePreserves bs ms := by
  induction extraMaps generalizing base bs with
  | nil => exact ⟨bs, h, mergePreserves_refl _⟩
  | cons e es ih =>
    obtain ⟨cs, hcs, hR⟩ := mergeExtra_preserves e base t bs h
    obtain ⟨ms, hms, hR'⟩ := ih (mergeExtra base e) cs hcs
    exact ⟨ms, hms, mergePreserves_trans hR hR'⟩

/-- C5 amended, witnessed on the sample base/extension stores. -/
theorem c5_amended_witness :
    mapGet sampleBaseStore "UNIVERSAL" = some sampleBaseSet ∧
    mergePreserves sampleBaseSet sampleMergedSet := by
  refine ⟨rfl, ?_⟩
  obtain ⟨ms, hms, hR⟩ :=
    c5_amended sampleBaseStore [sampleExtStore] "UNIVERSAL" sampleBaseSet rfl
  have hms2 : mapGet (loadAllTemplatesWithExtras sampleBaseStore [sampleExtStore])
      "UNIVERSAL" = some sampleMergedSet := rfl
  rw [hms] at hms2
  exact (Option.some.inj hms2) ▸ hR
